import Mathlib

/-!
Verification of the askpass-http daemon core (Go source, `main` package).

The embedding follows the source file function by function:

* `Askpass` mirrors the `Askpass` struct (descriptor of one pending
  password prompt).  `time.Time` values are modelled as `Int` instants;
  the Go zero time (`IsZero`) is modelled by `Option Int` with `none`
  standing for the zero value.
* Filesystem and network effects are made explicit: the result of
  `ini.Load` is an `IniResult` supplied by an oracle `fs : String → IniResult`
  indexed by path, the directory listing is an `Option (List DirEntry)`
  (`none` = `os.ReadDir` error), and the unix-datagram socket world is a
  `SockEnv` describing how `net.Dial` and `Conn.Write` behave.
* Answer strings are modelled as Lean `String`s; the byte sequence written
  to the socket is modelled as the `List Char` of the string (one char per
  source byte position, sufficient for the payload-shape properties).
-/

set_option autoImplicit false

/-- Result of `ini.Load` followed by reading the `[Ask]` section.
`loadError` is the case where the file cannot be parsed at all (the error
returned by `ini.Load`, the spec's MalformedInput kind).  In the parsed
case, a key absent from the section yields the empty string (the ini
library's `Key(...).String()` on a missing key), and `notAfter` is the
result of `MustTime(time.Time{})`: `none` when the key is missing or not a
valid time (the Go zero time). -/
inductive IniResult where
  | loadError
  | parsed (message icon socket : String) (notAfter : Option Int)
deriving Repr, DecidableEq

/-- Error kinds produced while constructing an `Askpass`, mirroring the
errors of the source: the `ini.Load` error (spec: MalformedInput),
`ErrMissingKey` wrapped with the offending key name (spec: MissingField),
and `ErrExpired`. -/
inductive AskpassError where
  | iniLoadError
  | errMissingKey (key : String)
  | errExpired
deriving Repr, DecidableEq

/-- The `Askpass` struct. `path` is `/run/systemd/ask-password/<name>`,
`socket` the datagram endpoint the answer is written to, `notAfter` the
expiry instant (`none` = zero time = never expires). -/
structure Askpass where
  path : String
  message : String
  icon : String
  socket : String
  notAfter : Option Int
deriving Repr, DecidableEq

/-- Embeds `Askpass.IsExpired`, with `now` passed explicitly (the source reads
`time.Now()`).  The source returns a non-nil `ErrExpired` error exactly
when `NotAfter` is non-zero and `now.After(a.NotAfter)` holds (strict
order); we model the error/nil distinction as `Bool`. -/
def Askpass.IsExpired (a : Askpass) (now : Int) : Bool :=
  match a.notAfter with
  | none => false
  | some t => now > t

/-- Embeds `Askpass.UnmarshalINI`: loads the ini file at `path` (result supplied
as `r`), fills the struct from the `[Ask]` section, then rejects an empty
`Message` or `Socket` with `ErrMissingKey`, checking `Message` first. -/
def Askpass.UnmarshalINI (path : String) (r : IniResult) :
    Except AskpassError Askpass :=
  match r with
  | .loadError => .error .iniLoadError
  | .parsed message icon socket notAfter =>
    if message = "" then .error (.errMissingKey "Message")
    else if socket = "" then .error (.errMissingKey "Socket")
    else .ok { path := path, message := message, icon := icon,
               socket := socket, notAfter := notAfter }

/-- Embeds `filepath.Join(*askDir, name)` as used by `NewAskpass`.  The cleaning
behaviour of Go's `filepath.Join` is irrelevant here because `name` only
ever comes from the directory listing itself, never from user input. -/
def filepathJoin (dir name : String) : String :=
  dir ++ "/" ++ name

/-- Embeds `NewAskpass`: parse the descriptor file for `name` under `askDir`,
then reject an expired descriptor. -/
def NewAskpass (askDir : String) (name : String) (fs : String → IniResult)
    (now : Int) : Except AskpassError Askpass :=
  match Askpass.UnmarshalINI (filepathJoin askDir name) (fs (filepathJoin askDir name)) with
  | .error e => .error e
  | .ok ap => if ap.IsExpired now then .error .errExpired else .ok ap

/-- Behaviour of the unix-datagram world for one `Answer` call:
whether `net.Dial("unixgram", ...)` fails, whether the single
`sock.Write` returns a non-nil error (deadline exceeded included), and
the byte count the write reports when it returns no error. -/
structure SockEnv where
  dialErr : Bool
  writeErr : Bool
  written : Nat
deriving Repr, DecidableEq

/-- Errors `Askpass.Answer` can return: the `net.Dial` error, the
`sock.Write` error (which is how an exceeded write deadline surfaces), or
`io.ErrShortWrite`. -/
inductive NetError where
  | dialError
  | writeError
  | errShortWrite
deriving Repr, DecidableEq

/-- Observable side effects of one `Answer` call: the payloads handed to
`sock.Write` (each is one datagram), whether the write deadline was set,
and whether the connection was closed (the source defers `sock.Close`). -/
structure AnswerTrace where
  sent : List (List Char)
  deadlineSet : Bool
  closed : Bool
deriving Repr, DecidableEq

/-- The constant `WriteTimeout = 10 * time.Second`, in nanoseconds. -/
def WriteTimeout : Int := 10 * 1000000000

/-- Embeds `Askpass.Answer`: dial the unixgram socket (failure returns the dial
error, nothing opened); otherwise set the write deadline, build the buffer
`'+'` followed by the answer bytes, write it once, and return the write
error if non-nil, `io.ErrShortWrite` if the reported count `n` satisfies
`n < len(s)` — note the source compares against `len(s)`, not against the
buffer length `1 + len(s)` — and nil otherwise.  The deferred `Close` runs
on every path after a successful dial. -/
def Askpass.Answer (a : Askpass) (s : String) (env : SockEnv) :
    Except NetError Unit × AnswerTrace :=
  if env.dialErr then
    (.error .dialError, { sent := [], deadlineSet := false, closed := false })
  else
    let buf : List Char := '+' :: s.data
    if env.writeErr then
      (.error .writeError, { sent := [buf], deadlineSet := true, closed := true })
    else if env.written < s.length then
      (.error .errShortWrite, { sent := [buf], deadlineSet := true, closed := true })
    else
      (.ok (), { sent := [buf], deadlineSet := true, closed := true })

/-- One entry of the `os.ReadDir` listing: its name and whether it is a
directory. -/
structure DirEntry where
  name : String
  isDir : Bool
deriving Repr, DecidableEq

/-- The type `Askers`, the registry: Go `map[string]*Askpass`, modelled as an
association list where the head-most binding for a key is the current one
(later map assignments cons in front). -/
abbrev Askers := List (String × Askpass)

/-- Embeds `Askers.Find`: map lookup, `nil` (here `none`) when absent.  It takes
no filesystem oracle: the Go body performs no I/O and uses `name` only as
the lookup key. -/
def Askers.Find : Askers → String → Option Askpass
  | [], _ => none
  | (k, v) :: rest, name => if k = name then some v else Askers.Find rest name

/-- Embeds `strings.HasPrefix` on the char-list view of strings (structural, so
that concrete instances evaluate in the kernel). -/
def hasLeadL : List Char → List Char → Bool
  | [], _ => true
  | _ :: _, [] => false
  | p :: ps, c :: cs => p = c && hasLeadL ps cs

/-- Embeds `strings.HasPrefix(s, pre)`, used by the enumeration filter. -/
def hasLead (pre s : String) : Bool :=
  hasLeadL pre.data s.data

/-- Events `NewAskers` sends to `log.Println`: the `os.ReadDir` error, or
the `NewAskpass` error for one skipped entry. -/
inductive LogEvent where
  | readDirError
  | askpassError (name : String) (e : AskpassError)
deriving Repr, DecidableEq

/-- The loop body of `NewAskers` over the directory entries: keep entries
whose name has the `ask.` prompt prefix and that are not directories, log
and skip any whose `NewAskpass` fails, and assign the rest into the map
keyed by filename. -/
def addAskers (askDir : String) (fs : String → IniResult) (now : Int) :
    List DirEntry → Askers → List LogEvent → Askers × List LogEvent
  | [], out, lg => (out, lg)
  | e :: rest, out, lg =>
    if hasLead "ask." e.name && !e.isDir then
      match NewAskpass askDir e.name fs now with
      | .error err => addAskers askDir fs now rest out (lg ++ [.askpassError e.name err])
      | .ok ap => addAskers askDir fs now rest ((e.name, ap) :: out) lg
    else
      addAskers askDir fs now rest out lg

/-- Embeds `NewAskers`: list the descriptor directory (`none` models an
`os.ReadDir` error, which the source logs and answers with a nil map),
then build the registry from the entries.  The second component is the
stream of `log.Println` events the call produces. -/
def NewAskers (askDir : String) (listing : Option (List DirEntry))
    (fs : String → IniResult) (now : Int) : Askers × List LogEvent :=
  match listing with
  | none => ([], [.readDirError])
  | some d => addAskers askDir fs now d [] []

/-- HTTP responses `ServePass` can produce, with the body detail where the
source includes one (`err.Error()` texts are abstracted by the
corresponding error values). -/
inductive PassResponse where
  | badRequest
  | notFound
  | internalError (e : NetError)
  | seeOther (location : String)
deriving Repr, DecidableEq

/-- The request data `ServePass` consumes: `r.ParseForm` either fails
(`none`) or yields the two form values `ask` and `answer`; a field absent
from the form reads as the empty string, as `r.FormValue` does. -/
structure PassForm where
  ask : String
  answer : String
deriving Repr, DecidableEq

/-- Embeds `ServePass`: 400 on form-parse failure; otherwise resolve the `ask`
value in a freshly built registry, 404 when absent; otherwise deliver the
`answer` value, 500 with the error on failure, and a 303 redirect to `/`
on success.  Paired with the socket trace of the delivery (empty when no
delivery was attempted). -/
def ServePass (form : Option PassForm) (askDir : String)
    (listing : Option (List DirEntry)) (fs : String → IniResult) (now : Int)
    (env : SockEnv) : PassResponse × AnswerTrace :=
  match form with
  | none => (.badRequest, { sent := [], deadlineSet := false, closed := false })
  | some f =>
    match (NewAskers askDir listing fs now).1.Find f.ask with
    | none => (.notFound, { sent := [], deadlineSet := false, closed := false })
    | some ap =>
      match ap.Answer f.answer env with
      | (.error e, tr) => (.internalError e, tr)
      | (.ok _, tr) => (.seeOther "/", tr)

/-- Strip a leading pattern from a char list: `some rest` when the list
starts with the pattern, `none` otherwise (the semantics of
`strings.CutPrefix`). -/
def cutLead : List Char → List Char → Option (List Char)
  | [], s => some s
  | _ :: _, [] => none
  | p :: ps, c :: cs => if p = c then cutLead ps cs else none

/-- Embeds `strings.CutPrefix(s, pre)` restricted to its `(after, found)` result:
`some after` when `found`, `none` otherwise. -/
def cutLeadStr (pre s : String) : Option String :=
  (cutLead pre.data s.data).map String.mk

/-- Decimal digit run accumulator used by `atoi`. -/
def parseNatDigits : List Char → Nat → Option Nat
  | [], acc => some acc
  | c :: rest, acc =>
    if c.isDigit then parseNatDigits rest (acc * 10 + (c.toNat - 48)) else none

/-- The largest value of Go's `int` on the build target (GOARCH=amd64 per
the Makefile): `2^63 - 1`. -/
def intMax : Int := 9223372036854775807

/-- Embeds `strconv.Atoi`: an optional sign followed by a non-empty digit run,
nothing else, with the 64-bit machine-int range check.  A syntactically
valid numeral whose value lies outside `[-2^63, 2^63 - 1]` fails with
`ErrRange`, which reaches the caller as an error exactly like a syntax
failure, so both are `none` here. -/
def atoi (s : String) : Option Int :=
  match s.data with
  | [] => none
  | '+' :: rest =>
    if rest = [] then none
    else (parseNatDigits rest 0).bind fun n =>
      if (n : Int) ≤ intMax then some (Int.ofNat n) else none
  | '-' :: rest =>
    if rest = [] then none
    else (parseNatDigits rest 0).bind fun n =>
      if (n : Int) ≤ intMax + 1 then some (-(n : Int)) else none
  | cs =>
    (parseNatDigits cs 0).bind fun n =>
      if (n : Int) ≤ intMax then some (Int.ofNat n) else none

/-- Outcome of `Listener`: adopting an inherited descriptor via
`net.FileListener` (no bind call occurs on this path), a fresh
`net.Listen("tcp", addr)` bind, or the `strconv.Atoi` failure returned
when the number after `fd:` does not parse. -/
inductive ListenerResult where
  | adopted (fd : Int)
  | bound (addr : String)
  | invalidSpec
deriving Repr, DecidableEq

/-- Embeds `Listener`: the source inspects the global `*listen` flag for the
`fd:` form (and passes it to `os.NewFile`), while the fresh bind uses the
`addr` argument; both are therefore parameters here.  The only call site,
`main`, passes `*listen` as `addr`. -/
def Listener (listen : String) (addr : String) : ListenerResult :=
  match cutLeadStr "fd:" listen with
  | some fdstr =>
    match atoi fdstr with
    | none => .invalidSpec
    | some fd => .adopted fd
  | none => .bound addr

/-- Result of `NewIdleHandler`: either the wrapped handler is returned
unchanged with a nil done channel (the `shutdownIdle <= 0` path), or it is
wrapped so that every request resets the inactivity timer, together with a
live done channel. -/
inductive IdleHandler (H : Type) where
  | passthrough (handler : H)
  | timed (handler : H) (shutdownIdle : Int)
deriving Repr, DecidableEq

/-- The constant `gracePeriod = 30 * time.Second`, in nanoseconds. -/
def gracePeriod : Int := 30 * 1000000000

/-- Embeds `NewIdleHandler` (durations in nanoseconds, matching
`time.Duration`): when `shutdownIdle > 0` it starts the inactivity timer
and returns the timer-resetting wrapper plus `ctx.Done()`; otherwise it
returns the handler unchanged and a nil channel.  The boolean is whether a
(non-nil) done channel is provided. -/
def NewIdleHandler {H : Type} (shutdownIdle : Int) (handler : H) :
    IdleHandler H × Bool :=
  if shutdownIdle > 0 then (.timed handler shutdownIdle, true)
  else (.passthrough handler, false)

/-- A concrete descriptor matching the spec's test scenario: file
`ask.abc123`, message `Enter passphrase`, socket `/tmp/test.sock`, no
expiry. -/
def apEx : Askpass :=
  { path := "/run/systemd/ask-password/ask.abc123"
    message := "Enter passphrase"
    icon := ""
    socket := "/tmp/test.sock"
    notAfter := none }

/-- A concrete filesystem oracle for the same scenario: every path loads
as the scenario descriptor contents. -/
def fsEx : String → IniResult :=
  fun _ => .parsed "Enter passphrase" "" "/tmp/test.sock" none

/-! ### Helper lemmas -/

theorem cutLead_eq_some_iff (p s r : List Char) :
    cutLead p s = some r ↔ s = p ++ r := by
  induction p generalizing s with
  | nil => simp [cutLead]
  | cons c cs ih =>
    cases s with
    | nil => simp [cutLead]
    | cons c' s' =>
      simp only [cutLead]
      by_cases h : c = c'
      · subst h
        simp [ih]
      · rw [if_neg h]
        simp only [List.cons_append, List.cons.injEq]
        constructor
        · intro hfalse
          exact absurd hfalse (by simp)
        · rintro ⟨hc, -⟩
          exact absurd hc.symm h

theorem cutLeadStr_eq_some_iff (pre s r : String) :
    cutLeadStr pre s = some r ↔ s = pre ++ r := by
  unfold cutLeadStr
  constructor
  · intro h
    cases hc : cutLead pre.data s.data with
    | none =>
      rw [hc] at h
      exact Option.noConfusion h
    | some cs =>
      rw [hc] at h
      have hr : String.mk cs = r := Option.some.inj h
      have hdata : s.data = pre.data ++ cs := (cutLead_eq_some_iff _ _ _).mp hc
      rw [String.ext_iff, String.data_append]
      rw [← hr]
      exact hdata
  · intro h
    have hdata : s.data = pre.data ++ r.data := by
      rw [h, String.data_append]
    rw [(cutLead_eq_some_iff pre.data s.data r.data).mpr hdata]
    rfl

theorem cutLeadStr_eq_none_iff (pre s : String) :
    cutLeadStr pre s = none ↔ ¬ ∃ r, s = pre ++ r := by
  constructor
  · rintro h ⟨r, rfl⟩
    rw [(cutLeadStr_eq_some_iff pre (pre ++ r) r).mpr rfl] at h
    exact Option.noConfusion h
  · intro h
    cases hc : cutLeadStr pre s with
    | none => rfl
    | some r => exact absurd ⟨r, (cutLeadStr_eq_some_iff pre s r).mp hc⟩ h

theorem find_cons (k : String) (v : Askpass) (rest : Askers) (name : String) :
    Askers.Find ((k, v) :: rest) name
      = if k = name then some v else rest.Find name := rfl

theorem find_addAskers_src (askDir : String) (fs : String → IniResult) (now : Int)
    (d : List DirEntry) :
    ∀ (out : Askers) (lg : List LogEvent) (name : String) (ap : Askpass),
      (addAskers askDir fs now d out lg).1.Find name = some ap →
      (∃ e ∈ d, e.name = name ∧ hasLead "ask." e.name = true ∧ e.isDir = false ∧
        NewAskpass askDir e.name fs now = .ok ap) ∨ out.Find name = some ap := by
  induction d with
  | nil =>
    intro out lg name ap h
    exact Or.inr h
  | cons e rest ih =>
    intro out lg name ap h
    simp only [addAskers] at h
    by_cases hc : (hasLead "ask." e.name && !e.isDir) = true
    · rw [if_pos hc] at h
      obtain ⟨hpre, hdir⟩ := Bool.and_eq_true_iff.mp hc
      cases hnp : NewAskpass askDir e.name fs now with
      | error err =>
        rw [hnp] at h
        rcases ih _ _ _ _ h with ⟨e', he', hrest⟩ | hout
        · exact Or.inl ⟨e', List.mem_cons_of_mem _ he', hrest⟩
        · exact Or.inr hout
      | ok ap' =>
        rw [hnp] at h
        rcases ih _ _ _ _ h with ⟨e', he', hrest⟩ | hout
        · exact Or.inl ⟨e', List.mem_cons_of_mem _ he', hrest⟩
        · rw [find_cons] at hout
          by_cases hne : e.name = name
          · rw [if_pos hne] at hout
            refine Or.inl ⟨e, List.mem_cons_self _ _, hne, hpre, ?_, ?_⟩
            · simpa using hdir
            · rw [hnp]
              rw [Option.some.inj hout]
          · rw [if_neg hne] at hout
            exact Or.inr hout
    · rw [if_neg hc] at h
      rcases ih _ _ _ _ h with ⟨e', he', hrest⟩ | hout
      · exact Or.inl ⟨e', List.mem_cons_of_mem _ he', hrest⟩
      · exact Or.inr hout

theorem find_addAskers_not_mem (askDir : String) (fs : String → IniResult) (now : Int)
    (d : List DirEntry) :
    ∀ (out : Askers) (lg : List LogEvent) (name : String),
      (∀ e ∈ d, e.name ≠ name) →
      (addAskers askDir fs now d out lg).1.Find name = out.Find name := by
  induction d with
  | nil =>
    intro out lg name _
    rfl
  | cons e rest ih =>
    intro out lg name hne
    simp only [addAskers]
    by_cases hc : (hasLead "ask." e.name && !e.isDir) = true
    · rw [if_pos hc]
      cases hnp : NewAskpass askDir e.name fs now with
      | error err =>
        exact ih _ _ _ (fun e' he' => hne e' (List.mem_cons_of_mem _ he'))
      | ok ap =>
        rw [ih _ _ _ (fun e' he' => hne e' (List.mem_cons_of_mem _ he'))]
        rw [find_cons, if_neg (hne e (List.mem_cons_self _ _))]
    · rw [if_neg hc]
      exact ih _ _ _ (fun e' he' => hne e' (List.mem_cons_of_mem _ he'))

theorem find_addAskers_found (askDir : String) (fs : String → IniResult) (now : Int)
    (d : List DirEntry) :
    ∀ (out : Askers) (lg : List LogEvent) (name : String) (ap : Askpass),
      (d.map DirEntry.name).Nodup →
      ∀ e : DirEntry, e ∈ d → e.name = name →
        hasLead "ask." e.name = true → e.isDir = false →
        NewAskpass askDir e.name fs now = .ok ap →
        (addAskers askDir fs now d out lg).1.Find name = some ap := by
  induction d with
  | nil =>
    intro out lg name ap _ e he
    exact absurd he (List.not_mem_nil e)
  | cons e0 rest ih =>
    intro out lg name ap hnd e he hname hpre hdir hok
    have hnd' : (rest.map DirEntry.name).Nodup := (List.nodup_cons.mp (by simpa using hnd)).2
    have hhead : e0.name ∉ rest.map DirEntry.name := (List.nodup_cons.mp (by simpa using hnd)).1
    simp only [addAskers]
    rcases List.mem_cons.mp he with rfl | hrest
    · have hc : (hasLead "ask." e.name && !e.isDir) = true := by
        rw [hpre, hdir]
        rfl
      rw [if_pos hc, hok]
      have hnone : ∀ e' ∈ rest, e'.name ≠ name := by
        intro e' he' hcontra
        exact hhead (hname ▸ hcontra ▸ List.mem_map_of_mem DirEntry.name he')
      rw [find_addAskers_not_mem askDir fs now rest _ _ _ hnone]
      rw [find_cons, if_pos hname]
    · have hne0 : e0.name ≠ name := by
        intro hcontra
        exact hhead (hcontra ▸ hname ▸ List.mem_map_of_mem DirEntry.name hrest)
      by_cases hc : (hasLead "ask." e0.name && !e0.isDir) = true
      · rw [if_pos hc]
        cases hnp : NewAskpass askDir e0.name fs now with
        | error err => exact ih _ _ _ _ hnd' e hrest hname hpre hdir hok
        | ok ap' => exact ih _ _ _ _ hnd' e hrest hname hpre hdir hok
      · rw [if_neg hc]
        exact ih _ _ _ _ hnd' e hrest hname hpre hdir hok

theorem log_addAskers_mono (askDir : String) (fs : String → IniResult) (now : Int)
    (d : List DirEntry) :
    ∀ (out : Askers) (lg : List LogEvent) (x : LogEvent),
      x ∈ lg → x ∈ (addAskers askDir fs now d out lg).2 := by
  induction d with
  | nil =>
    intro out lg x hx
    exact hx
  | cons e rest ih =>
    intro out lg x hx
    simp only [addAskers]
    by_cases hc : (hasLead "ask." e.name && !e.isDir) = true
    · rw [if_pos hc]
      cases hnp : NewAskpass askDir e.name fs now with
      | error err => exact ih _ _ _ (List.mem_append_left _ hx)
      | ok ap => exact ih _ _ _ hx
    · rw [if_neg hc]
      exact ih _ _ _ hx

theorem log_addAskers_skipped (askDir : String) (fs : String → IniResult) (now : Int)
    (d : List DirEntry) :
    ∀ (out : Askers) (lg : List LogEvent) (e : DirEntry) (err : AskpassError),
      e ∈ d → hasLead "ask." e.name = true → e.isDir = false →
      NewAskpass askDir e.name fs now = .error err →
      LogEvent.askpassError e.name err ∈ (addAskers askDir fs now d out lg).2 := by
  induction d with
  | nil =>
    intro out lg e err he
    exact absurd he (List.not_mem_nil e)
  | cons e0 rest ih =>
    intro out lg e err he hpre hdir herr
    simp only [addAskers]
    rcases List.mem_cons.mp he with rfl | hrest
    · have hc : (hasLead "ask." e.name && !e.isDir) = true := by
        rw [hpre, hdir]
        rfl
      rw [if_pos hc, herr]
      exact log_addAskers_mono askDir fs now rest _ _ _
        (List.mem_append_right _ (List.mem_singleton.mpr rfl))
    · by_cases hc : (hasLead "ask." e0.name && !e0.isDir) = true
      · rw [if_pos hc]
        cases hnp : NewAskpass askDir e0.name fs now with
        | error err' => exact ih _ _ _ _ hrest hpre hdir herr
        | ok ap => exact ih _ _ _ _ hrest hpre hdir herr
      · rw [if_neg hc]
        exact ih _ _ _ _ hrest hpre hdir herr

theorem newAskpass_ok_not_expired (askDir name : String) (fs : String → IniResult)
    (now : Int) (ap : Askpass) (h : NewAskpass askDir name fs now = .ok ap) :
    ap.IsExpired now = false := by
  unfold NewAskpass at h
  cases hu : Askpass.UnmarshalINI (filepathJoin askDir name) (fs (filepathJoin askDir name)) with
  | error e =>
    rw [hu] at h
    exact Except.noConfusion h
  | ok ap' =>
    rw [hu] at h
    dsimp only at h
    by_cases hex : ap'.IsExpired now = true
    · rw [if_pos hex] at h
      exact Except.noConfusion h
    · rw [if_neg hex] at h
      rw [← Except.ok.inj h]
      exact Bool.eq_false_iff.mpr hex

/-! ### Claim theorems -/

/-- C1: the function `Askers.Find` is a pure lookup: it takes no filesystem oracle
(the Go body performs no I/O and passes `name` nowhere else), and for
every registry and every lookup name — names with path-traversal
sequences such as `../../etc/passwd` included — it returns `none` or a
binding already present in the registry built by enumeration. -/
theorem Find_returns_only_enumerated (a : Askers) (name : String) :
    Askers.Find a name = none ∨
      ∃ ap, Askers.Find a name = some ap ∧ (name, ap) ∈ a := by
  induction a with
  | nil => exact Or.inl rfl
  | cons hd tl ih =>
    obtain ⟨k, v⟩ := hd
    rw [find_cons]
    by_cases hk : k = name
    · subst hk
      rw [if_pos rfl]
      exact Or.inr ⟨v, rfl, List.mem_cons_self _ _⟩
    · rw [if_neg hk]
      rcases ih with h | ⟨ap, h1, h2⟩
      · exact Or.inl h
      · exact Or.inr ⟨ap, h1, List.mem_cons_of_mem _ h2⟩

/-- C5: the check `IsExpired` is `false` when `NotAfter` is unset; when set it is
`true` iff `now` is strictly past it, so the exact boundary
`now = NotAfter` is not expired; and a descriptor that is expired at
construction time is rejected by `NewAskpass`, hence absent from every
registry lookup. -/
theorem IsExpired_strict_and_rejected (now : Int) :
    (∀ ap : Askpass, ap.notAfter = none → ap.IsExpired now = false) ∧
    (∀ (ap : Askpass) (t : Int), ap.notAfter = some t →
      (ap.IsExpired now = true ↔ t < now)) ∧
    (∀ ap : Askpass, ap.notAfter = some now → ap.IsExpired now = false) ∧
    (∀ (askDir name : String) (fs : String → IniResult) (ap : Askpass),
      NewAskpass askDir name fs now = .ok ap → ap.IsExpired now = false) ∧
    (∀ (askDir : String) (listing : Option (List DirEntry))
      (fs : String → IniResult) (name : String) (ap : Askpass),
      (NewAskers askDir listing fs now).1.Find name = some ap →
      ap.IsExpired now = false) := by
  refine ⟨?_, ?_, ?_, ?_, ?_⟩
  · intro ap h
    simp [Askpass.IsExpired, h]
  · intro ap t h
    simp [Askpass.IsExpired, h]
  · intro ap h
    simp [Askpass.IsExpired, h]
  · intro askDir name fs ap h
    exact newAskpass_ok_not_expired askDir name fs now ap h
  · intro askDir listing fs name ap h
    cases listing with
    | none => exact Option.noConfusion h
    | some d =>
      rcases find_addAskers_src askDir fs now d _ _ _ _ h with
        ⟨e, _, _, _, _, hok⟩ | hout
      · exact newAskpass_ok_not_expired askDir e.name fs now ap hok
      · exact Option.noConfusion hout

/-- C5 witness: at the exact boundary (`NotAfter` = `now` = 5) the
descriptor is not expired. -/
theorem IsExpired_strict_and_rejected_witness :
    ({ path := "/run/systemd/ask-password/ask.b", message := "m", icon := "",
       socket := "/tmp/s.sock", notAfter := some 5 } : Askpass).IsExpired 5 = false :=
  (IsExpired_strict_and_rejected 5).2.2.1 _ rfl

/-- C9: a zero idle duration disables the supervisor: `NewIdleHandler`
returns the wrapped handler unchanged (no timer branch is taken) and a
nil done channel. -/
theorem NewIdleHandler_zero_passthrough {H : Type} (handler : H) :
    NewIdleHandler 0 handler = (IdleHandler.passthrough handler, false) := by
  simp [NewIdleHandler]

/-- C3: when the dial succeeds, `Answer` hands the socket exactly one
datagram, whose content is the tag byte `+` immediately followed by the
raw bytes of the answer — no length prefix, no trailing delimiter. -/
theorem Answer_single_tagged_datagram (ap : Askpass) (s : String) (env : SockEnv)
    (h : env.dialErr = false) :
    (ap.Answer s env).2.sent = ['+' :: s.data] := by
  unfold Askpass.Answer
  rw [if_neg (by simp [h])]
  dsimp only
  split
  · rfl
  · split <;> rfl

/-- C3 witness: the spec scenario — answering `hunter2` sends the single
datagram `+hunter2`. -/
theorem Answer_single_tagged_datagram_witness :
    (apEx.Answer "hunter2" { dialErr := false, writeErr := false, written := 8 }).2.sent
      = ['+' :: "hunter2".data] :=
  Answer_single_tagged_datagram apEx "hunter2"
    { dialErr := false, writeErr := false, written := 8 } rfl

theorem unmarshal_missing_key (path msg icon sock : String) (na : Option Int)
    (h : msg = "" ∨ sock = "") :
    ∃ k, Askpass.UnmarshalINI path (.parsed msg icon sock na)
      = .error (.errMissingKey k) := by
  by_cases hm : msg = ""
  · exact ⟨"Message", by simp [Askpass.UnmarshalINI, hm]⟩
  · rcases h with h | hs
    · exact absurd h hm
    · exact ⟨"Socket", by simp [Askpass.UnmarshalINI, hm, hs]⟩

theorem newAskpass_error_of_missing (askDir name msg icon sock : String)
    (na : Option Int) (fs : String → IniResult) (now : Int)
    (hfs : fs (filepathJoin askDir name) = .parsed msg icon sock na)
    (h : msg = "" ∨ sock = "") :
    ∃ k, NewAskpass askDir name fs now = .error (.errMissingKey k) := by
  obtain ⟨k, hk⟩ := unmarshal_missing_key (filepathJoin askDir name) msg icon sock na h
  refine ⟨k, ?_⟩
  unfold NewAskpass
  rw [hfs, hk]

/-- C4: enumeration always yields a registry, never a wholesale error.
With a listable directory whose entry names are distinct, the successful
lookups are exactly the non-directory entries carrying the `ask.` prompt
prefix whose `NewAskpass` (parse plus expiry check) succeeds, keyed by
filename; an entry failing parse or expiry is logged and skipped; a
directory-listing failure is logged and yields the empty registry, in
which every lookup returns `none`. -/
theorem NewAskers_registry_contents (askDir : String) (fs : String → IniResult)
    (now : Int) :
    (∀ d : List DirEntry, (d.map DirEntry.name).Nodup →
      (∀ (name : String) (ap : Askpass),
        (NewAskers askDir (some d) fs now).1.Find name = some ap ↔
          ∃ e ∈ d, e.name = name ∧ hasLead "ask." e.name = true ∧
            e.isDir = false ∧ NewAskpass askDir e.name fs now = .ok ap) ∧
      (∀ e ∈ d, ∀ err : AskpassError,
        hasLead "ask." e.name = true → e.isDir = false →
        NewAskpass askDir e.name fs now = .error err →
        LogEvent.askpassError e.name err ∈ (NewAskers askDir (some d) fs now).2)) ∧
    ((NewAskers askDir none fs now).1 = [] ∧
      LogEvent.readDirError ∈ (NewAskers askDir none fs now).2 ∧
      ∀ name : String, (NewAskers askDir none fs now).1.Find name = none) := by
  refine ⟨?_, rfl, List.mem_singleton.mpr rfl, fun _ => rfl⟩
  intro d hnd
  constructor
  · intro name ap
    constructor
    · intro h
      rcases find_addAskers_src askDir fs now d _ _ _ _ h with hsrc | hout
      · exact hsrc
      · exact absurd hout (by simp [Askers.Find])
    · rintro ⟨e, he, hname, hpre, hdir, hok⟩
      exact find_addAskers_found askDir fs now d _ _ _ _ hnd e he hname
        hpre hdir hok
  · intro e he err hpre hdir herr
    exact log_addAskers_skipped askDir fs now d _ _ _ _ he hpre hdir herr

/-- C4 witness: a directory with one valid prompt file `ask.abc123` and
one subdirectory named `ask.dir`; the registry resolves exactly the
file. -/
theorem NewAskers_registry_contents_witness :
    (NewAskers "/run/systemd/ask-password"
        (some [{ name := "ask.abc123", isDir := false },
               { name := "ask.dir", isDir := true }]) fsEx 0).1.Find "ask.abc123"
      = some { path := "/run/systemd/ask-password/ask.abc123",
               message := "Enter passphrase", icon := "",
               socket := "/tmp/test.sock", notAfter := none } :=
  (((NewAskers_registry_contents "/run/systemd/ask-password" fsEx 0).1
      [{ name := "ask.abc123", isDir := false }, { name := "ask.dir", isDir := true }]
      (by decide)).1 "ask.abc123" _).mpr
    ⟨{ name := "ask.abc123", isDir := false }, by decide, rfl, by decide, rfl, rfl⟩

/-- C7: a descriptor file that parses as the key/value format but whose
`Message` or `Socket` value is empty fails with the `ErrMissingKey` kind
(spec: MissingField), distinct from the `ini.Load` failure kind (spec:
MalformedInput) that occurs exactly when the file cannot be parsed at
all; and no such file contributes a registry entry under its name. -/
theorem UnmarshalINI_missing_field (path msg icon sock : String) (na : Option Int) :
    ((msg = "" ∨ sock = "") →
      ∃ k, Askpass.UnmarshalINI path (.parsed msg icon sock na)
          = .error (.errMissingKey k) ∧
        AskpassError.errMissingKey k ≠ AskpassError.iniLoadError) ∧
    (∀ r : IniResult,
      Askpass.UnmarshalINI path r = .error .iniLoadError ↔ r = .loadError) ∧
    (∀ (askDir name : String) (fs : String → IniResult) (now : Int)
      (d : List DirEntry),
      fs (filepathJoin askDir name) = .parsed msg icon sock na →
      (msg = "" ∨ sock = "") →
      (NewAskers askDir (some d) fs now).1.Find name = none) := by
  refine ⟨?_, ?_, ?_⟩
  · intro h
    obtain ⟨k, hk⟩ := unmarshal_missing_key path msg icon sock na h
    exact ⟨k, hk, fun hcontra => AskpassError.noConfusion hcontra⟩
  · intro r
    constructor
    · intro h
      cases r with
      | loadError => rfl
      | parsed m i s n =>
        by_cases hm : m = ""
        · simp [Askpass.UnmarshalINI, hm] at h
        · by_cases hs : s = ""
          · simp [Askpass.UnmarshalINI, hm, hs] at h
          · simp [Askpass.UnmarshalINI, hm, hs] at h
    · intro h
      rw [h]
      rfl
  · intro askDir name fs now d hfs h
    obtain ⟨k, hk⟩ := newAskpass_error_of_missing askDir name msg icon sock na fs now hfs h
    cases hfind : (NewAskers askDir (some d) fs now).1.Find name with
    | none => rfl
    | some ap =>
      rcases find_addAskers_src askDir fs now d _ _ _ _ hfind with
        ⟨e, _, hname, _, _, hok⟩ | hout
      · rw [hname, hk] at hok
        exact Except.noConfusion hok
      · exact absurd hout (by simp [Askers.Find])

/-- C7 witness: a file with an empty `Message` fails with the
missing-key kind, not the load-failure kind. -/
theorem UnmarshalINI_missing_field_witness :
    ∃ k, Askpass.UnmarshalINI "/run/systemd/ask-password/ask.x"
        (.parsed "" "" "/tmp/test.sock" none) = .error (.errMissingKey k) ∧
      AskpassError.errMissingKey k ≠ AskpassError.iniLoadError :=
  (UnmarshalINI_missing_field "/run/systemd/ask-password/ask.x" "" ""
    "/tmp/test.sock" none).1 (Or.inl rfl)

/-- C6: the handler `ServePass` responds 400 when the form fails to parse; otherwise
404 when the opaque `ask` name does not resolve in the freshly enumerated
registry; otherwise 500 carrying the delivery failure when `Answer`
fails; otherwise a 303 redirect to the index `/`. -/
theorem ServePass_status_mapping (askDir : String) (listing : Option (List DirEntry))
    (fs : String → IniResult) (now : Int) (env : SockEnv) :
    ((ServePass none askDir listing fs now env).1 = .badRequest) ∧
    (∀ f : PassForm, (NewAskers askDir listing fs now).1.Find f.ask = none →
      (ServePass (some f) askDir listing fs now env).1 = .notFound) ∧
    (∀ (f : PassForm) (ap : Askpass) (e : NetError),
      (NewAskers askDir listing fs now).1.Find f.ask = some ap →
      (ap.Answer f.answer env).1 = .error e →
      (ServePass (some f) askDir listing fs now env).1 = .internalError e) ∧
    (∀ (f : PassForm) (ap : Askpass),
      (NewAskers askDir listing fs now).1.Find f.ask = some ap →
      (ap.Answer f.answer env).1 = .ok () →
      (ServePass (some f) askDir listing fs now env).1 = .seeOther "/") := by
  refine ⟨rfl, ?_, ?_, ?_⟩
  · intro f hfind
    unfold ServePass
    dsimp only
    rw [hfind]
  · intro f ap e hfind hans
    cases hA : ap.Answer f.answer env with
    | mk res tr =>
      rw [hA] at hans
      dsimp only at hans
      subst hans
      unfold ServePass
      dsimp only
      rw [hfind]
      dsimp only
      rw [hA]
  · intro f ap hfind hans
    cases hA : ap.Answer f.answer env with
    | mk res tr =>
      rw [hA] at hans
      dsimp only at hans
      subst hans
      unfold ServePass
      dsimp only
      rw [hfind]
      dsimp only
      rw [hA]

/-- C6 witness: with an empty descriptor directory, `POST /pass` for
`ask.abc123` responds 404. -/
theorem ServePass_status_mapping_witness :
    (ServePass (some { ask := "ask.abc123", answer := "hunter2" })
        "/run/systemd/ask-password" (some []) fsEx 0
        { dialErr := false, writeErr := false, written := 8 }).1 = .notFound :=
  (ServePass_status_mapping "/run/systemd/ask-password" (some []) fsEx 0
    { dialErr := false, writeErr := false, written := 8 }).2.1
    { ask := "ask.abc123", answer := "hunter2" } rfl

/-- C10: the empty answer is accepted end to end: with the dial
succeeding and the write returning no error, `Answer ""` returns ok and
sends the datagram consisting solely of the tag byte `+` (the
short-write comparison is against `len("") = 0` and can never fire,
whatever count the write reports); consequently a `POST /pass` whose
`ask` resolves and whose `answer` field is empty or absent (Go's
`FormValue` yields `""` for both) relays the lone `+` datagram and
responds with the success redirect, not 400. -/
theorem Answer_empty_accepted (ap : Askpass) (env : SockEnv)
    (hd : env.dialErr = false) (hw : env.writeErr = false) :
    (ap.Answer "" env).1 = .ok () ∧
    (ap.Answer "" env).2.sent = [['+']] ∧
    ∀ (askDir : String) (listing : Option (List DirEntry)) (fs : String → IniResult)
      (now : Int) (ask : String),
      (NewAskers askDir listing fs now).1.Find ask = some ap →
      (ServePass (some { ask := ask, answer := "" }) askDir listing fs now env).1
        = .seeOther "/" := by
  have hans : ap.Answer "" env =
      (.ok (), { sent := [['+']], deadlineSet := true, closed := true }) := by
    unfold Askpass.Answer
    rw [if_neg (by simp [hd])]
    dsimp only
    rw [if_neg (by simp [hw])]
    rw [if_neg (by simp)]
  refine ⟨by rw [hans], by rw [hans], ?_⟩
  intro askDir listing fs now ask hfind
  unfold ServePass
  dsimp only
  rw [hfind]
  dsimp only
  rw [hans]

/-- C10 witness: the full scenario — one valid prompt, empty answer
field, dial and write succeed — ends in the 303 redirect. -/
theorem Answer_empty_accepted_witness :
    (ServePass (some { ask := "ask.abc123", answer := "" })
        "/run/systemd/ask-password" (some [{ name := "ask.abc123", isDir := false }])
        fsEx 0 { dialErr := false, writeErr := false, written := 1 }).1
      = .seeOther "/" :=
  (Answer_empty_accepted
    { path := "/run/systemd/ask-password/ask.abc123", message := "Enter passphrase",
      icon := "", socket := "/tmp/test.sock", notAfter := none }
    { dialErr := false, writeErr := false, written := 1 } rfl rfl).2.2
    "/run/systemd/ask-password" (some [{ name := "ask.abc123", isDir := false }])
    fsEx 0 "ask.abc123" rfl

/-- C2: the source's short-write check compares the count reported by
`sock.Write` against `len(s)`, not against the `1 + len(s)` bytes it
supplied (tag byte plus answer).  With answer `ab` — 3 bytes supplied —
and a write reporting 2 bytes with no error, `Answer` returns ok instead
of failing, contradicting the claimed error condition; the connection is
still closed. -/
theorem Answer_short_write_not_detected :
    ('+' :: "ab".data).length = 3 ∧
    (apEx.Answer "ab" { dialErr := false, writeErr := false, written := 2 }).1
      = .ok () ∧
    (apEx.Answer "ab" { dialErr := false, writeErr := false, written := 2 }).2.closed
      = true :=
  ⟨rfl, rfl, rfl⟩

/-- C8: the resolver `Listener` — whose only caller passes the listen flag itself as
the address, so `spec` stands in both positions — adopts file descriptor
`n` (a distinct result from any bind) exactly when the spec has the form
`fd:<n>` with `n` parseable by `strconv.Atoi`, returns the parse failure
(`InvalidSpec`) when `n` does not parse, and otherwise performs a fresh
TCP bind treating the spec as a `host:port` address. -/
theorem Listener_fd_adoption (spec : String) :
    (∀ rest : String, spec = "fd:" ++ rest →
      (∀ n : Int, atoi rest = some n → Listener spec spec = .adopted n) ∧
      (atoi rest = none → Listener spec spec = .invalidSpec)) ∧
    ((¬ ∃ rest : String, spec = "fd:" ++ rest) → Listener spec spec = .bound spec) := by
  constructor
  · intro rest hspec
    have hcut : cutLeadStr "fd:" spec = some rest :=
      (cutLeadStr_eq_some_iff _ _ _).mpr hspec
    constructor
    · intro n hn
      unfold Listener
      rw [hcut]
      dsimp only
      rw [hn]
    · intro hn
      unfold Listener
      rw [hcut]
      dsimp only
      rw [hn]
  · intro hno
    have hcut : cutLeadStr "fd:" spec = none :=
      (cutLeadStr_eq_none_iff _ _).mpr hno
    unfold Listener
    rw [hcut]

/-- C8 witness: the spec scenario — `fd:3` adopts descriptor 3, not a
bind. -/
theorem Listener_fd_adoption_witness :
    Listener "fd:3" "fd:3" = .adopted 3 :=
  ((Listener_fd_adoption "fd:3").1 "3" (by decide)).1 3 (by decide)
